import Mathlib

/-!
Verification development for the devilutionX tabular data loading core:
the bounded integer parser (`ParseInt`), the 6-bit fixed-point fraction
parser (`ParseFixed6Fraction`), and the experience-table loading loop
of `playerdat.cpp` (`ReloadExperienceData`, `ExperienceData`).

Machine integers are modelled as `Nat`/`Int`.  In `ParseFixed6Fraction`
the `uint32_t` accumulator stays below `10^7 < 2^32` (at most 7 digits
are consumed) and the `uint8_t` result stays below `65 < 2^8`, so no
wrap-around modelling is needed there; both facts are proved below.
-/

namespace DevilutionX

/-- Errors of `ParseInt` (enum `ParseIntError` in the source). -/
inductive ParseIntError where
  | ParseError
  | OutOfRange
deriving DecidableEq

/-- Shallow model of `tl::expected<IntT, ParseIntError>` (`ParseIntResult`). -/
inductive ParseIntResult (α : Type) where
  | value (v : α)
  | unexpected (e : ParseIntError)
deriving DecidableEq

/-- Error codes of `std::from_chars` relevant to `ParseInt`. -/
inductive Errc where
  | ok
  | invalidArgument
  | resultOutOfRange
deriving DecidableEq

/-- `character >= '0' && character <= '9'`, compared by code point as in C. -/
def isDigitChar (c : Char) : Bool :=
  48 ≤ c.toNat && c.toNat ≤ 57

/-- Numeric value of a digit character (`c - '0'`). -/
def digitVal (c : Char) : Nat :=
  c.toNat - 48

/-- Value of a digit run accumulated most-significant first. -/
def digitsToNat (ds : List Char) : Nat :=
  ds.foldl (fun a c => a * 10 + digitVal c) 0

/-- Whether `std::from_chars` sees a minus sign: only signed targets accept it. -/
def litNeg (signed : Bool) (s : List Char) : Bool :=
  signed && (s.head? == some '-')

/-- The part of the input after the optional sign. -/
def litBody (signed : Bool) (s : List Char) : List Char :=
  if litNeg signed s then s.tail else s

/-- The maximal leading digit run after the optional sign. -/
def litDigits (signed : Bool) (s : List Char) : List Char :=
  (litBody signed s).takeWhile isDigitChar

/-- Numeric value of the leading literal (sign applied). -/
def litValue (signed : Bool) (s : List Char) : Int :=
  if litNeg signed s then -(digitsToNat (litDigits signed s) : Int)
  else (digitsToNat (litDigits signed s) : Int)

/-- Bytes consumed by the literal: the digits plus one for a consumed sign. -/
def litLen (signed : Bool) (s : List Char) : Nat :=
  (if litNeg signed s then 1 else 0) + (litDigits signed s).length

/--
Semantics of `std::from_chars` for base-10 integers, the call made by
`ParseInt`.  `signed` is the signedness of `IntT`; `tmin`/`tmax` are the
representable range of `IntT`.  Returns `(error code, bytes consumed,
parsed value)`: a minus sign is consumed only for signed targets, the
maximal digit run is consumed, no digits means `invalid_argument` with
nothing consumed, and a value outside the type's range means
`result_out_of_range` with the whole literal consumed.
-/
def fromChars (signed : Bool) (tmin tmax : Int) (s : List Char) : Errc × Nat × Int :=
  if litDigits signed s = [] then (Errc.invalidArgument, 0, 0)
  else if litValue signed s < tmin ∨ tmax < litValue signed s then
    (Errc.resultOutOfRange, litLen signed s, 0)
  else
    (Errc.ok, litLen signed s, litValue signed s)

/--
`ParseInt<IntT>(str, min, max, endOfParse)`.  The target type `IntT` is
abstracted by its signedness and representable range `[tmin, tmax]`.
The second component of the result is `*endOfParse - str.data()`, the
number of bytes consumed.
-/
def ParseInt (signed : Bool) (tmin tmax : Int) (str : List Char)
    (min max : Int) : ParseIntResult Int × Nat :=
  match fromChars signed tmin tmax str with
  | (Errc.invalidArgument, ptr, _) => (ParseIntResult.unexpected ParseIntError.ParseError, ptr)
  | (Errc.resultOutOfRange, ptr, _) => (ParseIntResult.unexpected ParseIntError.OutOfRange, ptr)
  | (Errc.ok, ptr, value) =>
    if value < min ∨ max < value then (ParseIntResult.unexpected ParseIntError.OutOfRange, ptr)
    else (ParseIntResult.value value, ptr)

/-- The rounding step of `ParseFixed6Fraction`: `(decimalFraction + 78125) / 156250`
with C integer (truncating) division. -/
def fixed6Round (decimalFraction : Nat) : Nat :=
  (decimalFraction + 78125) / 156250

/-- The digit-accumulation loop of `ParseFixed6Fraction`: reads at most 7
leading digits, returning the accumulated value and the digit count. -/
def parseFixed6Loop : List Char → Nat → Nat → Nat × Nat
  | [], numDigits, acc => (acc, numDigits)
  | c :: rest, numDigits, acc =>
    if numDigits < 7 then
      if isDigitChar c then parseFixed6Loop rest (numDigits + 1) (acc * 10 + digitVal c)
      else (acc, numDigits)
    else (acc, numDigits)

/--
`ParseFixed6Fraction(str)`: reads at most 7 leading decimal digits,
normalises to 7 decimal places by scaling with a power of ten
(`std::pow(10U, 7U - numDigits)` is exact on these ranges), and rounds
with `fixed6Round`.  The `uint32_t` accumulator never exceeds
`10^7 - 1` and the `uint8_t` result never exceeds `64`, so plain `Nat`
arithmetic is a faithful model (proved in `parseFixed6Loop_bound` and
`ParseFixed6Fraction_le_64`).
-/
def ParseFixed6Fraction (str : List Char) : Nat :=
  let p := parseFixed6Loop str 0 0
  let decimalFraction := if p.2 < 7 then p.1 * 10 ^ (7 - p.2) else p.1
  fixed6Round decimalFraction

/-- Round to nearest with ties rounding up, on the rational `p / q`:
`floor(p/q + 1/2)` computed as `(2p + q) / (2q)` in `Nat` division. -/
def roundNearestTiesUp (p q : Nat) : Nat :=
  (2 * p + q) / (2 * q)

/-- A digit character from a digit value. -/
def digitChar (d : Nat) : Char :=
  Char.ofNat (48 + d)

/-- A 7-digit zero-padded decimal rendering of `v < 10^7`. -/
def format7 (v : Nat) : List Char :=
  [digitChar (v / 1000000 % 10), digitChar (v / 100000 % 10), digitChar (v / 10000 % 10),
   digitChar (v / 1000 % 10), digitChar (v / 100 % 10), digitChar (v / 10 % 10),
   digitChar (v % 10)]

lemma digitVal_le_9 (c : Char) (h : isDigitChar c = true) : digitVal c ≤ 9 := by
  simp only [isDigitChar, Bool.and_eq_true, decide_eq_true_eq] at h
  unfold digitVal
  omega

lemma parseFixed6Loop_bound :
    ∀ (s : List Char) (numDigits acc : Nat), numDigits ≤ 7 → acc < 10 ^ numDigits →
      (parseFixed6Loop s numDigits acc).2 ≤ 7 ∧
      (parseFixed6Loop s numDigits acc).1 < 10 ^ (parseFixed6Loop s numDigits acc).2
  | [], _, _, hn, hacc => by
    simpa [parseFixed6Loop] using ⟨hn, hacc⟩
  | c :: rest, n, acc, hn, hacc => by
    unfold parseFixed6Loop
    by_cases h7 : n < 7
    · rw [if_pos h7]
      by_cases hc : isDigitChar c
      · rw [if_pos hc]
        refine parseFixed6Loop_bound rest (n + 1) (acc * 10 + digitVal c) (by omega) ?_
        have hdv := digitVal_le_9 c hc
        have hpow : 10 ^ (n + 1) = 10 ^ n * 10 := by ring
        omega
      · rw [if_neg hc]
        exact ⟨hn, hacc⟩
    · rw [if_neg h7]
      exact ⟨hn, hacc⟩

lemma fixed6Round_le_64 (d : Nat) (hd : d ≤ 9999999) : fixed6Round d ≤ 64 := by
  unfold fixed6Round
  calc (d + 78125) / 156250 ≤ (9999999 + 78125) / 156250 := Nat.div_le_div_right (by omega)
    _ = 64 := by norm_num

lemma ParseFixed6Fraction_le_64 (s : List Char) : ParseFixed6Fraction s ≤ 64 := by
  unfold ParseFixed6Fraction
  obtain ⟨h1, h2⟩ := parseFixed6Loop_bound s 0 0 (by omega) (by norm_num)
  set p := parseFixed6Loop s 0 0 with hp
  refine fixed6Round_le_64 _ ?_
  by_cases h : p.2 < 7
  · rw [if_pos h]
    have h3 : (p.1 + 1) * 10 ^ (7 - p.2) ≤ 10 ^ p.2 * 10 ^ (7 - p.2) :=
      Nat.mul_le_mul h2 (le_refl _)
    rw [add_mul, one_mul] at h3
    have h5 : 10 ^ p.2 * 10 ^ (7 - p.2) = 10 ^ 7 := by
      rw [← pow_add]
      congr 1
      omega
    have h6 : 0 < 10 ^ (7 - p.2) := pow_pos (by norm_num) _
    rw [h5] at h3
    norm_num at h3 ⊢
    omega
  · rw [if_neg h]
    have h4 : p.2 = 7 := by omega
    rw [h4] at h2
    norm_num at h2
    omega

/-- C1 (counterexample): contrary to the claim that `ParseFixed6Fraction` always
returns a value in 0..63 with `ParseFixed6Fraction("9999999") = 63`, the code
computes `(9999999 + 78125) / 156250 = 64` on the input `"9999999"`. -/
theorem ParseFixed6Fraction_nines_counterexample :
    ParseFixed6Fraction ("9999999".toList) = 64 ∧
    ¬ ParseFixed6Fraction ("9999999".toList) ≤ 63 := by
  decide

/-- C1 (amended): for every input string `ParseFixed6Fraction` returns a value in
the range 0..64; `ParseFixed6Fraction("0")` returns 0 and
`ParseFixed6Fraction("9999999")` returns 64 (fractions within half a step of 1.0
round up to 64, one past the claimed maximum of 63). -/
theorem ParseFixed6Fraction_range_amended :
    (∀ s : List Char, ParseFixed6Fraction s ≤ 64) ∧
    ParseFixed6Fraction ("0".toList) = 0 ∧
    ParseFixed6Fraction ("9999999".toList) = 64 :=
  ⟨ParseFixed6Fraction_le_64, by decide, by decide⟩

/-- C5: for every accumulated 7-digit decimal fraction value `d` in 0..9999999,
the truncating expression `(d + 78125) / 156250` computed by
`ParseFixed6Fraction` equals round-to-nearest of `64 * d / 10000000` with ties
rounding up. -/
theorem fixed6Round_is_roundNearest (d : Nat) (hd : d ≤ 9999999) :
    fixed6Round d = roundNearestTiesUp (64 * d) 10000000 := by
  unfold fixed6Round roundNearestTiesUp
  have h1 : 2 * (64 * d) + 10000000 = 128 * (d + 78125) := by ring
  have h2 : 2 * 10000000 = 128 * 156250 := by norm_num
  rw [h1, h2, Nat.mul_div_mul_left _ _ (by norm_num : 0 < 128)]

/-- Witness for C5 at `d = 5000000`. -/
theorem fixed6Round_is_roundNearest_witness :
    5000000 ≤ 9999999 ∧
    fixed6Round 5000000 = roundNearestTiesUp (64 * 5000000) 10000000 :=
  ⟨by decide, fixed6Round_is_roundNearest 5000000 (by decide)⟩

/-- C6: `ParseFixed6Fraction` maps `"5"`, `"50"`, `"5000000"` and `"5000001"`
to the identical result 32: a shorter decimal fraction, its trailing-zero-padded
form, and the padded form plus one unit of least precision parse identically. -/
theorem ParseFixed6Fraction_trailing_invariance :
    ParseFixed6Fraction ("5".toList) = 32 ∧
    ParseFixed6Fraction ("50".toList) = 32 ∧
    ParseFixed6Fraction ("5000000".toList) = 32 ∧
    ParseFixed6Fraction ("5000001".toList) = 32 := by
  decide

/-- C7: for every `k` in 0..63, formatting `round(k/64 * 10000000)` as a 7-digit
decimal string and applying `ParseFixed6Fraction` recovers exactly `k`. -/
theorem ParseFixed6Fraction_roundTrip (k : Nat) (hk : k < 64) :
    ParseFixed6Fraction (format7 (roundNearestTiesUp (k * 10000000) 64)) = k := by
  revert k
  decide

/-- Witness for C7 at `k = 32`. -/
theorem ParseFixed6Fraction_roundTrip_witness :
    32 < 64 ∧ ParseFixed6Fraction (format7 (roundNearestTiesUp (32 * 10000000) 64)) = 32 :=
  ⟨by decide, ParseFixed6Fraction_roundTrip 32 (by decide)⟩

lemma isDigitChar_ne_dash (c : Char) (h : isDigitChar c = true) : c ≠ '-' := by
  intro hc
  subst hc
  exact absurd h (by decide)

lemma takeWhile_all_digits (ds : List Char) (h : ∀ c ∈ ds, isDigitChar c = true) :
    ds.takeWhile isDigitChar = ds :=
  List.takeWhile_eq_self_iff.mpr h

lemma fromChars_eq_invalid (signed : Bool) (tmin tmax : Int) (s : List Char)
    (h : litDigits signed s = []) :
    fromChars signed tmin tmax s = (Errc.invalidArgument, 0, 0) := by
  unfold fromChars
  rw [if_pos h]

lemma fromChars_eq_oor (signed : Bool) (tmin tmax : Int) (s : List Char)
    (h : litDigits signed s ≠ [])
    (h2 : litValue signed s < tmin ∨ tmax < litValue signed s) :
    fromChars signed tmin tmax s = (Errc.resultOutOfRange, litLen signed s, 0) := by
  unfold fromChars
  rw [if_neg h, if_pos h2]

lemma fromChars_eq_ok (signed : Bool) (tmin tmax : Int) (s : List Char)
    (h : litDigits signed s ≠ [])
    (h2 : ¬(litValue signed s < tmin ∨ tmax < litValue signed s)) :
    fromChars signed tmin tmax s = (Errc.ok, litLen signed s, litValue signed s) := by
  unfold fromChars
  rw [if_neg h, if_neg h2]

lemma litNeg_dash (s : List Char) : litNeg true ('-' :: s) = true := by
  simp [litNeg]

lemma litDigits_dash_signed (ds : List Char) (hdig : ∀ c ∈ ds, isDigitChar c = true) :
    litDigits true ('-' :: ds) = ds := by
  simp [litDigits, litBody, litNeg_dash, takeWhile_all_digits ds hdig]

lemma litValue_dash_signed (ds : List Char) (hdig : ∀ c ∈ ds, isDigitChar c = true) :
    litValue true ('-' :: ds) = -(digitsToNat ds : Int) := by
  simp [litValue, litNeg_dash, litDigits_dash_signed ds hdig]

lemma litLen_dash_signed (ds : List Char) (hdig : ∀ c ∈ ds, isDigitChar c = true) :
    litLen true ('-' :: ds) = 1 + ds.length := by
  simp [litLen, litNeg_dash, litDigits_dash_signed ds hdig]

lemma litDigits_dash_unsigned (tail : List Char) : litDigits false ('-' :: tail) = [] := by
  simp [litDigits, litBody, litNeg, List.takeWhile_cons, isDigitChar]

/-- C2 (counterexample): for the signed 32-bit instantiation with `min = 0`,
`ParseInt` on `"-5"` consumes the sign and the digit (the end-of-parse cursor
advances by 2 bytes), contradicting the claim that no sign or digits are
consumed when `min ≥ 0`. -/
theorem ParseInt_min_nonneg_consumes_counterexample :
    (ParseInt true (-2147483648) 2147483647 ("-5".toList) 0 2147483647).2 = 2 ∧
    (ParseInt true (-2147483648) 2147483647 ("-5".toList) 0 2147483647).2 ≠ 0 := by
  decide

/-- C2 (amended): a leading `'-'` is consumed exactly when the target type is
signed, regardless of the caller's `min` bound: for an unsigned target a
leading `'-'` yields `ParseError` with nothing consumed, while for a signed
target the sign and the following digits are consumed even when `min ≥ 0`,
and a nonzero negative literal then fails with `OutOfRange`. -/
theorem ParseInt_sign_consumption (tmin tmax lo hi : Int) (ds : List Char)
    (hne : ds ≠ []) (hdig : ∀ c ∈ ds, isDigitChar c = true)
    (hpos : 0 < digitsToNat ds) (hlo : 0 ≤ lo) :
    ParseInt false tmin tmax ('-' :: ds) lo hi
      = (ParseIntResult.unexpected ParseIntError.ParseError, 0) ∧
    (ParseInt true tmin tmax ('-' :: ds) lo hi).1
      = ParseIntResult.unexpected ParseIntError.OutOfRange ∧
    (ParseInt true tmin tmax ('-' :: ds) lo hi).2 = 1 + ds.length := by
  refine ⟨?_, ?_⟩
  · unfold ParseInt
    rw [fromChars_eq_invalid false tmin tmax ('-' :: ds) (litDigits_dash_unsigned ds)]
  · have hdne : litDigits true ('-' :: ds) ≠ [] := by
      rw [litDigits_dash_signed ds hdig]
      exact hne
    have hvneg : litValue true ('-' :: ds) < 0 := by
      rw [litValue_dash_signed ds hdig]
      have : (0 : Int) < (digitsToNat ds : Int) := by exact_mod_cast hpos
      omega
    by_cases h2 : litValue true ('-' :: ds) < tmin ∨ tmax < litValue true ('-' :: ds)
    · unfold ParseInt
      rw [fromChars_eq_oor true tmin tmax ('-' :: ds) hdne h2]
      exact ⟨rfl, litLen_dash_signed ds hdig⟩
    · unfold ParseInt
      rw [fromChars_eq_ok true tmin tmax ('-' :: ds) hdne h2]
      dsimp only
      rw [if_pos (Or.inl (by omega))]
      exact ⟨rfl, litLen_dash_signed ds hdig⟩

/-- Witness for C2 (amended) at `ds = "5"`, `tmin = -128`, `tmax = 127`,
`lo = 0`, `hi = 127`. -/
theorem ParseInt_sign_consumption_witness :
    ("5".toList ≠ []) ∧
    ParseInt false (-128) 127 ('-' :: "5".toList) 0 127
      = (ParseIntResult.unexpected ParseIntError.ParseError, 0) ∧
    (ParseInt true (-128) 127 ('-' :: "5".toList) 0 127).1
      = ParseIntResult.unexpected ParseIntError.OutOfRange ∧
    (ParseInt true (-128) 127 ('-' :: "5".toList) 0 127).2 = 1 + ("5".toList).length := by
  refine ⟨by decide, ?_⟩
  exact ParseInt_sign_consumption (-128) 127 0 127 ("5".toList)
    (by decide) (by decide) (by decide) (by decide)

/-- C3: `ParseInt` fails with `ParseError` exactly when no valid digits were
consumed, and fails with `OutOfRange` exactly when a literal was consumed and
its value overflows the underlying integer width `[tmin, tmax]` or falls
outside the caller's inclusive `[min, max]` bounds. -/
theorem ParseInt_error_taxonomy (signed : Bool) (tmin tmax lo hi : Int) (s : List Char) :
    ((ParseInt signed tmin tmax s lo hi).1
        = ParseIntResult.unexpected ParseIntError.ParseError ↔
      litDigits signed s = []) ∧
    ((ParseInt signed tmin tmax s lo hi).1
        = ParseIntResult.unexpected ParseIntError.OutOfRange ↔
      litDigits signed s ≠ [] ∧
        (litValue signed s < tmin ∨ tmax < litValue signed s ∨
         litValue signed s < lo ∨ hi < litValue signed s)) := by
  by_cases h1 : litDigits signed s = []
  · unfold ParseInt
    rw [fromChars_eq_invalid signed tmin tmax s h1]
    simp [h1]
  · by_cases h2 : litValue signed s < tmin ∨ tmax < litValue signed s
    · unfold ParseInt
      rw [fromChars_eq_oor signed tmin tmax s h1 h2]
      dsimp only
      constructor
      · simp
        exact h1
      · simp [h1]
        tauto
    · by_cases h3 : litValue signed s < lo ∨ hi < litValue signed s
      · unfold ParseInt
        rw [fromChars_eq_ok signed tmin tmax s h1 h2]
        dsimp only
        rw [if_pos h3]
        constructor
        · simp
          exact h1
        · simp [h1]
          tauto
      · unfold ParseInt
        rw [fromChars_eq_ok signed tmin tmax s h1 h2]
        dsimp only
        rw [if_neg h3]
        push_neg at h2 h3
        constructor
        · simp
          exact h1
        · simp
          intro _
          omega

/-- C4: for every valid decimal literal (optional sign permitted only for a
signed target, followed by digits) whose value lies within the type width
`[tmin, tmax]` and the caller bounds `[min, max]`, `ParseInt` returns the
literal's numeric value and reports a consumed length equal to the digit
count plus one for the sign if present (counted from position 0: no leading
whitespace is skipped). -/
theorem ParseInt_valid_literal (signed : Bool) (tmin tmax lo hi : Int) (neg : Bool)
    (ds : List Char) (hne : ds ≠ []) (hdig : ∀ c ∈ ds, isDigitChar c = true)
    (hsgn : neg = true → signed = true) (v : Int)
    (hv : v = if neg then -(digitsToNat ds : Int) else (digitsToNat ds : Int))
    (h1 : tmin ≤ v) (h2 : v ≤ tmax) (h3 : lo ≤ v) (h4 : v ≤ hi) :
    ParseInt signed tmin tmax ((if neg then ['-'] else []) ++ ds) lo hi
      = (ParseIntResult.value v, (if neg then 1 else 0) + ds.length) := by
  cases neg with
  | true =>
    have hs : signed = true := hsgn rfl
    subst hs
    have hv2 : v = -(digitsToNat ds : Int) := by simpa using hv
    show ParseInt true tmin tmax ('-' :: ds) lo hi
      = (ParseIntResult.value v, 1 + ds.length)
    have hdne : litDigits true ('-' :: ds) ≠ [] := by
      rw [litDigits_dash_signed ds hdig]
      exact hne
    have hvv : litValue true ('-' :: ds) = v := by
      rw [litValue_dash_signed ds hdig, hv2]
    unfold ParseInt
    rw [fromChars_eq_ok true tmin tmax ('-' :: ds) hdne (by rw [hvv]; omega)]
    dsimp only
    rw [hvv, if_neg (by omega)]
    rw [litLen_dash_signed ds hdig]
  | false =>
    have hv2 : v = (digitsToNat ds : Int) := by simpa using hv
    show ParseInt signed tmin tmax ds lo hi = (ParseIntResult.value v, 0 + ds.length)
    obtain ⟨c, rest, rfl⟩ : ∃ c rest, ds = c :: rest := by
      cases ds with
      | nil => exact absurd rfl hne
      | cons c rest => exact ⟨c, rest, rfl⟩
    have hcd : isDigitChar c = true := hdig c (List.mem_cons_self c rest)
    have hcne : c ≠ '-' := isDigitChar_ne_dash c hcd
    have hneg : litNeg signed (c :: rest) = false := by
      simp [litNeg, List.head?]
      intro _
      exact hcne
    have hdg : litDigits signed (c :: rest) = c :: rest := by
      simp [litDigits, litBody, hneg, takeWhile_all_digits _ hdig]
    have hdne : litDigits signed (c :: rest) ≠ [] := by
      rw [hdg]
      exact List.cons_ne_nil c rest
    have hvv : litValue signed (c :: rest) = v := by
      rw [litValue, if_neg (by rw [hneg]; exact Bool.false_ne_true), hdg, hv2]
    unfold ParseInt
    rw [fromChars_eq_ok signed tmin tmax (c :: rest) hdne (by rw [hvv]; omega)]
    dsimp only
    rw [hvv, if_neg (by omega)]
    rw [litLen, hneg, hdg]
    simp

/-- Witness for C4 at the signed 32-bit literal `"-42"` with caller bounds
`[-100, 100]`. -/
theorem ParseInt_valid_literal_witness :
    ("42".toList ≠ []) ∧ ((-100 : Int) ≤ -42) ∧
    ParseInt true (-2147483648) 2147483647 ((if true then ['-'] else []) ++ "42".toList)
        (-100) 100
      = (ParseIntResult.value (-42), (if true then 1 else 0) + ("42".toList).length) := by
  refine ⟨by decide, by decide, ?_⟩
  exact ParseInt_valid_literal true (-2147483648) 2147483647 (-100) 100 true
    ("42".toList) (by decide) (by decide) (fun _ => rfl) (-42) (by decide)
    (by decide) (by decide) (by decide) (by decide)

/-! ## `playerdat.cpp`: the experience table and its loading loop -/

/-- The two columns of the experience table (`enum class ExperienceColumn`). -/
inductive ExperienceColumn where
  | Level
  | Experience
deriving DecidableEq

/-- A resolved header column (`ColumnDefinition`, specialised to the
experience schema): the schema column id and the number of physical columns
to skip to reach it from the previous one. -/
structure ColumnDefinition where
  column : ExperienceColumn
  skipLength : Nat
deriving DecidableEq

/-- Modelled from the spec: `DataFileField::parseInt` (in the data-file
engine, not among the provided sources) delegates to `ParseInt` over the
field's full text with the target type's full range as bounds and fails
when trailing characters remain after the parsed literal, i.e. the entire
cell must be consumed. -/
def fieldParseInt (signed : Bool) (tmin tmax : Int) (s : List Char) : ParseIntResult Int :=
  match ParseInt signed tmin tmax s tmin tmax with
  | (ParseIntResult.value v, consumed) =>
    if consumed = s.length then ParseIntResult.value v
    else ParseIntResult.unexpected ParseIntError.OutOfRange
  | (ParseIntResult.unexpected e, _) => ParseIntResult.unexpected e

/-- `field.parseInt(level)` with `level : uint8_t`. -/
def fieldParseIntU8 (s : List Char) : ParseIntResult Int :=
  fieldParseInt false 0 255 s

/-- `field.parseInt(experience)` with `experience : uint32_t`. -/
def fieldParseIntU32 (s : List Char) : ParseIntResult Int :=
  fieldParseInt false 0 4294967295 s

/-- Whether a cell parses cleanly both as a `uint8_t` and as a `uint32_t`
bounded integer (used to isolate the not-enough-columns failure mode). -/
def parsesClean (f : List Char) : Bool :=
  (match fieldParseIntU8 f with
   | ParseIntResult.value _ => true
   | ParseIntResult.unexpected _ => false) &&
  (match fieldParseIntU32 f with
   | ParseIntResult.value _ => true
   | ParseIntResult.unexpected _ => false)

/-- Outcome of the per-record column loop of `ReloadExperienceData`. -/
inductive RecordOutcome where
  | fatalNotEnoughColumns
  | fatalFieldError (e : ParseIntError)
  | skipped
  | parsed (level : Nat) (experience : Nat)
deriving DecidableEq

/-- The column loop of `ReloadExperienceData` over one record; `fields` are
the record's physical cells and `idx` the field iterator's position.
Modelled from the spec where the sources stop: `FieldIterator` (data-file
engine, not among the provided sources) advances forward and saturates at
the end sentinel `fields.length`, and dereferencing at the sentinel is the
fatal `NotEnoughColumns` condition.  The loop body follows the source:
advance by `skipLength`, compare with the end sentinel, dereference, parse
by column kind (a `Level` cell that fails to parse and reads `"MaxLevel"`
marks the record skipped), advance one column, continue. -/
def processExperienceRecord (fields : List (List Char)) :
    List ColumnDefinition → Nat → Nat → Nat → RecordOutcome
  | [], _, level, experience => RecordOutcome.parsed level experience
  | col :: rest, idx, level, experience =>
    let idx2 := min (idx + col.skipLength) fields.length
    if h : idx2 < fields.length then
      match col.column with
      | ExperienceColumn.Level =>
        match fieldParseIntU8 (fields.get ⟨idx2, h⟩) with
        | ParseIntResult.value v =>
          processExperienceRecord fields rest (idx2 + 1) v.toNat experience
        | ParseIntResult.unexpected e =>
          if fields.get ⟨idx2, h⟩ = ("MaxLevel".toList) then RecordOutcome.skipped
          else RecordOutcome.fatalFieldError e
      | ExperienceColumn.Experience =>
        match fieldParseIntU32 (fields.get ⟨idx2, h⟩) with
        | ParseIntResult.value v =>
          processExperienceRecord fields rest (idx2 + 1) level v.toNat
        | ParseIntResult.unexpected e => RecordOutcome.fatalFieldError e
    else RecordOutcome.fatalNotEnoughColumns

namespace ExperienceData

/-- `ExperienceData::getMaxLevel`: the threshold count clamped to
`uint8_t` range. -/
def getMaxLevel (levelThresholds : List Nat) : Nat :=
  min levelThresholds.length 255

/-- The vector index `std::min<unsigned>(level - 1, getMaxLevel())` used by
`getThresholdForLevel` when `level > 0`. -/
def thresholdIndex (levelThresholds : List Nat) (level : Nat) : Nat :=
  min (level - 1) (getMaxLevel levelThresholds)

/-- `ExperienceData::getThresholdForLevel`.  The C++ code indexes
`levelThresholds` at `thresholdIndex` unconditionally; the model totalises
the access with `List.getD` default 0 (the C10 analysis below shows the
index can equal the vector size, where the C++ access is out of bounds). -/
def getThresholdForLevel (levelThresholds : List Nat) (level : Nat) : Nat :=
  if level > 0 then levelThresholds.getD (thresholdIndex levelThresholds level) 0
  else 0

/-- `ExperienceData::setThresholdForLevel`: grows the vector to `level`
entries filled with `0xFFFFFFFF` when it is shorter, then stores at
`level - 1`. -/
def setThresholdForLevel (levelThresholds : List Nat) (level experience : Nat) : List Nat :=
  if level > 0 then
    (if levelThresholds.length < level
     then levelThresholds ++ List.replicate (level - levelThresholds.length) 4294967295
     else levelThresholds).set (level - 1) experience
  else levelThresholds

end ExperienceData

/-- Modelled from the spec: within a record, cells are separated by single
tab characters (record splitting lives in the data-file engine, not among
the provided sources). -/
def splitFields : List Char → List (List Char)
  | [] => [[]]
  | c :: rest =>
    if c = '\t' then [] :: splitFields rest
    else
      match splitFields rest with
      | f :: fs => (c :: f) :: fs
      | [] => [[c]]

/-- Modelled from the spec: parsing the header `"Level\tExperience"` against
the experience schema resolves, in physical order, to `Level` then
`Experience`, each with `skipLength = 0`. -/
def experienceColumns : List ColumnDefinition :=
  [⟨ExperienceColumn.Level, 0⟩, ⟨ExperienceColumn.Experience, 0⟩]

/-- Fatal errors surfaced by the experience loading loop. -/
inductive LoadError where
  | NotEnoughColumns
  | FieldError (e : ParseIntError)
deriving DecidableEq

/-- The record loop of `ReloadExperienceData`: each data record is processed
with `processExperienceRecord`; `setThresholdForLevel` is applied unless the
record was skipped, and fatal errors abort the load. -/
def reloadExperienceRecords : List (List Char) → List Nat → Except LoadError (List Nat)
  | [], thresholds => Except.ok thresholds
  | row :: rest, thresholds =>
    match processExperienceRecord (splitFields row) experienceColumns 0 0 0 with
    | RecordOutcome.fatalNotEnoughColumns => Except.error LoadError.NotEnoughColumns
    | RecordOutcome.fatalFieldError e => Except.error (LoadError.FieldError e)
    | RecordOutcome.skipped => reloadExperienceRecords rest thresholds
    | RecordOutcome.parsed level experience =>
      reloadExperienceRecords rest
        (ExperienceData.setThresholdForLevel thresholds level experience)

/-- Number of physical columns a column list makes the loop consume: each
schema column skips `skipLength` cells and dereferences one more. -/
def requiredColumns : List ColumnDefinition → Nat
  | [] => 0
  | col :: rest => col.skipLength + 1 + requiredColumns rest

lemma requiredColumns_cons (col : ColumnDefinition) (rest : List ColumnDefinition) :
    requiredColumns (col :: rest) = col.skipLength + 1 + requiredColumns rest :=
  rfl

/-- C8: during row processing, a record with fewer physical columns than the
schema's column definitions require is reported as fatal `NotEnoughColumns`
rather than processed to completion: the loop stops the moment advancing by
a column's `skipLength` reaches the end sentinel.  The cleanliness
hypothesis rules out the loop aborting earlier for a different fatal reason
(an unparseable cell) or skipping the record via the sentinel value. -/
theorem processExperienceRecord_not_enough_columns :
    ∀ (cols : List ColumnDefinition) (fields : List (List Char)) (idx level experience : Nat),
      idx ≤ fields.length →
      fields.length < idx + requiredColumns cols →
      (∀ f ∈ fields, parsesClean f = true) →
      processExperienceRecord fields cols idx level experience
        = RecordOutcome.fatalNotEnoughColumns
  | [], fields, idx, level, experience, hle, hlt, _ => by
    exfalso
    unfold requiredColumns at hlt
    omega
  | col :: rest, fields, idx, level, experience, hle, hlt, hclean => by
    unfold processExperienceRecord
    by_cases h : min (idx + col.skipLength) fields.length < fields.length
    · rw [dif_pos h]
      have hidx2 : min (idx + col.skipLength) fields.length = idx + col.skipLength := by
        omega
      have hcl := hclean _ (fields.get_mem _ h)
      rw [requiredColumns_cons] at hlt
      have hrec : ∀ level2 experience2 : Nat,
          processExperienceRecord fields rest
            (min (idx + col.skipLength) fields.length + 1) level2 experience2
            = RecordOutcome.fatalNotEnoughColumns := fun level2 experience2 =>
        processExperienceRecord_not_enough_columns rest fields
          (min (idx + col.skipLength) fields.length + 1) level2 experience2
          (by omega) (by omega) hclean
      cases hcol : col.column with
      | Level =>
        cases hu : fieldParseIntU8 (fields.get ⟨min (idx + col.skipLength) fields.length, h⟩) with
        | value v =>
          exact hrec v.toNat experience
        | unexpected e =>
          exfalso
          unfold parsesClean at hcl
          rw [hu] at hcl
          simp at hcl
      | Experience =>
        cases hu : fieldParseIntU32 (fields.get ⟨min (idx + col.skipLength) fields.length, h⟩) with
        | value v =>
          exact hrec level v.toNat
        | unexpected e =>
          exfalso
          unfold parsesClean at hcl
          rw [hu] at hcl
          simp at hcl
    · rw [dif_neg h]

/-- Witness for C8: the single-cell record `"5"` against the two-column
experience schema. -/
theorem processExperienceRecord_not_enough_columns_witness :
    ([("5".toList)] : List (List Char)).length < 0 + requiredColumns experienceColumns ∧
    processExperienceRecord [("5".toList)] experienceColumns 0 0 0
      = RecordOutcome.fatalNotEnoughColumns :=
  ⟨by decide, processExperienceRecord_not_enough_columns experienceColumns [("5".toList)] 0 0 0
    (by decide) (by decide) (by decide)⟩

/-- C9: loading the data rows `"5\t2000"` and `"MaxLevel\t0"` under the
header `"Level\tExperience"` (resolved as `experienceColumns`) stores
threshold 2000 for level 5 — the levels below are back-filled with
`0xFFFFFFFF` — so `getThresholdForLevel 5 = 2000`; the `"MaxLevel"` sentinel
row is skipped and leaves any threshold state unchanged. -/
theorem reloadExperienceData_end_to_end :
    reloadExperienceRecords [("5\t2000".toList), ("MaxLevel\t0".toList)] []
      = Except.ok [4294967295, 4294967295, 4294967295, 4294967295, 2000] ∧
    ExperienceData.getThresholdForLevel
      [4294967295, 4294967295, 4294967295, 4294967295, 2000] 5 = 2000 ∧
    (∀ thresholds : List Nat,
      reloadExperienceRecords [("MaxLevel\t0".toList)] thresholds = Except.ok thresholds) :=
  ⟨rfl, rfl, fun _ => rfl⟩

/-- C10: evaluation at the failing input.  For the one-entry threshold state
and `level = 2`, the index `std::min<unsigned>(level - 1, getMaxLevel())`
computed by `getThresholdForLevel` equals the vector size instead of being
strictly below it, so the C++ `operator[]` access is out of bounds there
(the `level = 0` half of the claim does hold and is included). -/
theorem getThresholdForLevel_index_out_of_bounds :
    ExperienceData.thresholdIndex [1000] 2 = ([1000] : List Nat).length ∧
    ¬ ExperienceData.thresholdIndex [1000] 2 < ([1000] : List Nat).length ∧
    ExperienceData.getThresholdForLevel [1000] 0 = 0 := by
  decide

end DevilutionX
